import Mathlib

/-!
# Cyclist Collision Visual: kinematic model and blind-spot shadow

A shallow embedding of the simulation core of `src/cyclist-collider.cpp`:
the idle callback `Animate`, the button callback `Buttons`, `Reset`,
`Replay`, the first two lines of `Display` and `DrawShadow`.

Conventions of the embedding.

* The C globals the core reads and writes are the fields of `State`.  The
  camera and widget globals (`Scale`, `Xrot`, `Fov`, `RotMatrix`, ...) are
  not part of the model.
* A `float` is an element of a linearly ordered field `α` and arithmetic is
  exact: rounding, NaN and infinities are not modelled.  Division is the
  field's division, so `x / 0 = 0`.  The one place where rounding decides
  what the program does, the two law-of-sines quotients of `DrawShadow`, is
  modelled a second time with every operation rounded to binary32 or binary64
  (the definitions ending in `_fp`).
* `glutGet(GLUT_ELAPSED_TIME)` is the explicit argument `now : Int`
  (milliseconds).  The two `int` globals are `Int`: readings are assumed to
  stay inside the range of a C `int`, so no subtraction wraps.
* `sin`, `cos` and `M_PI` of `math.h` are the fields of a `MathH` record
  passed to `DrawShadow`; over `ℝ` the record is
  `MathH.mk Real.sin Real.cos Real.pi`.
* The `glVertex3f` calls `DrawShadow` issues are returned as a list of
  vertices; an early `return` is the empty list.
-/

namespace CyclistCollider

/-! ## Data model -/

/-- The functions and the constant of `math.h` used by `DrawShadow`. -/
structure MathH (α : Type) where
  sin : α → α
  cos : α → α
  M_PI : α

/-- The non-constant globals of the simulation core. -/
structure State (α : Type) where
  AngleIntersection : α
  LeadingAngle : α
  TrailingAngle : α
  CarStart : α
  CarDistance : α
  CarSpeed : α
  BikeStart : α
  BikeDistance : α
  BikeSpeed : α
  CarDistanceTravelled : α
  BikeDistanceTravelled : α
  animate_start_time : Int
  time_frozen : Int
  Frozen : Bool
  play : Bool
  Time : α

/-- The globals at program start: C zero-initialises them. -/
def initState {α : Type} [Field α] : State α :=
  { AngleIntersection := 0, LeadingAngle := 0, TrailingAngle := 0,
    CarStart := 0, CarDistance := 0, CarSpeed := 0,
    BikeStart := 0, BikeDistance := 0, BikeSpeed := 0,
    CarDistanceTravelled := 0, BikeDistanceTravelled := 0,
    animate_start_time := 0, time_frozen := 0,
    Frozen := false, play := false, Time := 0 }

/-- The constant `DEG_TO_RAD = M_PI / 180.0`. -/
def DEG_TO_RAD {α : Type} [Field α] (m : MathH α) : α := m.M_PI / 180

/-- The values of `enum ButtonVals`. -/
def PLAY : Int := 0

/-- The second value of `enum ButtonVals`. -/
def RESET : Int := 1

/-- The third value of `enum ButtonVals`. -/
def REPLAY : Int := 2

/-- The fourth value of `enum ButtonVals`. -/
def QUIT : Int := 3

/-- The `enum SliderVals`: which live variable a GLUI slider or edit box is
bound to in `InitGlui`. -/
inductive SliderVals where
  | FOV
  | AOI
  | LA
  | TA
  | CSTART
  | CSPEED
  | BSTART
  | BSPEED
  deriving DecidableEq, Repr

/-! ## Kinematic model -/

/-- The function `Replay`: clears the clock and the travelled distances and
pauses; `now` is the value of `glutGet(GLUT_ELAPSED_TIME)`. -/
def Replay {α : Type} [Field α] (now : Int) (s : State α) : State α :=
  { s with
    Time := 0
    CarDistance := s.CarStart
    CarDistanceTravelled := 0
    BikeDistance := s.BikeStart
    BikeDistanceTravelled := 0
    play := false
    animate_start_time := now
    time_frozen := 0
    Frozen := true }

/-- The function `Reset`: the default scene, then `Replay`. -/
def Reset {α : Type} [Field α] (now : Int) (s : State α) : State α :=
  Replay now
    { s with
      AngleIntersection := 69
      LeadingAngle := 194 / 10
      TrailingAngle := 271 / 10
      CarStart := 100
      CarSpeed := 18
      BikeStart := 39
      BikeSpeed := 7 }

/-- The function `Animate` (the GLUT idle callback). -/
def Animate {α : Type} [Field α] (now : Int) (s : State α) : State α :=
  if s.play then
    let seconds : α := ((now - s.animate_start_time : Int) : α) / 1000
    let dt : α := seconds - s.Time
    { s with
      Time := seconds
      CarDistanceTravelled := s.CarDistanceTravelled + dt * s.CarSpeed
      BikeDistanceTravelled := s.BikeDistanceTravelled + dt * s.BikeSpeed }
  else s

/-- The body of `case PLAY:` of `Buttons`. -/
def Buttons_PLAY {α : Type} (now : Int) (s : State α) : State α :=
  let s1 : State α := { s with play := !s.play, Frozen := !s.Frozen }
  if s1.Frozen then
    { s1 with time_frozen := now - s1.animate_start_time }
  else
    { s1 with animate_start_time := now - s1.time_frozen }

/-- The function `Buttons`.  `none` is `exit(0)` of `case QUIT:`; an unknown
id only prints a message. -/
def Buttons {α : Type} [Field α] (id : Int) (now : Int) (s : State α) :
    Option (State α) :=
  if id = PLAY then some (Buttons_PLAY now s)
  else if id = RESET then some (Reset now s)
  else if id = REPLAY then some (Replay now s)
  else if id = QUIT then none
  else some s

/-- The first two statements of `Display`: the distances remaining. -/
def Display {α : Type} [Field α] (s : State α) : State α :=
  { s with
    CarDistance := s.CarStart - s.CarDistanceTravelled
    BikeDistance := s.BikeStart - s.BikeDistanceTravelled }

/-- A write of the GLUI library into the live variable bound to a slider or
edit box (`InitGlui` binds `&AngleIntersection`, `&LeadingAngle`, ...).  `Fov`
is not part of the model. -/
def writeLive {α : Type} (id : SliderVals) (v : α) (s : State α) : State α :=
  match id with
  | .FOV => s
  | .AOI => { s with AngleIntersection := v }
  | .LA => { s with LeadingAngle := v }
  | .TA => { s with TrailingAngle := v }
  | .CSTART => { s with CarStart := v }
  | .CSPEED => { s with CarSpeed := v }
  | .BSTART => { s with BikeStart := v }
  | .BSPEED => { s with BikeSpeed := v }

/-! ## Blind-spot shadow -/

/-- The local `CSED_Numerator` of `DrawShadow`. -/
def CSED_Numerator {α : Type} [Field α] (m : MathH α) (s : State α) : α :=
  s.CarDistance * m.sin (s.AngleIntersection * DEG_TO_RAD m)

/-- The denominator of `CSED_Lead` in `DrawShadow`, in exact arithmetic with
the one constant `m.M_PI`; `leadDenominator_fp` is its machine evaluation. -/
def leadDenominator {α : Type} [Field α] (m : MathH α) (s : State α) : α :=
  m.sin (m.M_PI - (s.LeadingAngle * DEG_TO_RAD m + s.AngleIntersection * DEG_TO_RAD m))

/-- The denominator of `CSED_Trail` in `DrawShadow`, in exact arithmetic with
the one constant `m.M_PI`; `trailDenominator_fp` is its machine evaluation. -/
def trailDenominator {α : Type} [Field α] (m : MathH α) (s : State α) : α :=
  m.sin (m.M_PI - (s.TrailingAngle * DEG_TO_RAD m + s.AngleIntersection * DEG_TO_RAD m))

/-- The local `CSED_Lead` of `DrawShadow`. -/
def CSED_Lead {α : Type} [Field α] (m : MathH α) (s : State α) : α :=
  CSED_Numerator m s / leadDenominator m s

/-- The local `CSED_Trail` of `DrawShadow` as first assigned (the law of
sines), before the sentinel test. -/
def CSED_Trail {α : Type} [Field α] (m : MathH α) (s : State α) : α :=
  CSED_Numerator m s / trailDenominator m s

/-- The function `DrawShadow`: the vertices passed to `glVertex3f`, in order. -/
def DrawShadow {α : Type} [LinearOrderedField α] (m : MathH α) (s : State α) :
    List (α × α × α) :=
  let angle_difference : α := 180 - s.AngleIntersection
  if s.CarDistance < 0 ∨ angle_difference < s.LeadingAngle then
    []
  else
    let lAngle : α := s.LeadingAngle * DEG_TO_RAD m
    let tAngle : α := s.TrailingAngle * DEG_TO_RAD m
    let trail0 : α := CSED_Trail m s
    let lead : α := CSED_Lead m s
    let trail : α := if angle_difference < s.TrailingAngle then 100000 else trail0
    let Opp_Lead : α := m.sin lAngle
    let Opp_Trail : α := m.sin tAngle
    let Adj_Lead : α := -m.cos lAngle
    let Adj_Trail : α := -m.cos tAngle
    [ (0, 1 / 10, s.CarDistance),
      (lead * Opp_Lead, 1 / 10, lead * Adj_Lead + s.CarDistance),
      (trail * Opp_Trail, 1 / 10, trail * Adj_Trail + s.CarDistance) ]

/-- The OpenGL call `glRotatef(angle, 0, 1, 0)` applied to a point: the
rotation about the Y axis by `angle` degrees.  `Display` issues it with
`AngleIntersection` before drawing `RoadList` (a strip along the Z axis,
centred on `x = 0`) as the bike road. -/
def glRotatef_Y {α : Type} [Field α] (m : MathH α) (angle : α) (v : α × α × α) :
    α × α × α :=
  (v.1 * m.cos (angle * DEG_TO_RAD m) + v.2.2 * m.sin (angle * DEG_TO_RAD m),
    v.2.1,
    -v.1 * m.sin (angle * DEG_TO_RAD m) + v.2.2 * m.cos (angle * DEG_TO_RAD m))

/-! ## The law-of-sines quotients as the machine evaluates them

The definitions above treat every `float` operation as exact and use one
constant `M_PI`.  The source mixes two formats: `DEG_TO_RAD`, the three
angles in radians and their sum are `float` (binary32), while `M_PI`, the
subtraction `M_PI - (tAngle + iAngle)` and the `sin` of it are `double`
(binary64).  The definitions below round every operation of the two quotients
`CSED_Lead` and `CSED_Trail` to its format: round to nearest, ties to even,
with an unbounded exponent (no overflow or underflow, which the documented
ranges do not reach).  The library `sin` is the mathematical sine rounded to
the format of its result. -/

/-- Round to the nearest integer, ties to the even one. -/
def roundEven {α : Type} [LinearOrderedField α] [FloorRing α] (y : α) : Int :=
  let f : Int := Int.floor y
  if y - (f : α) < 1 / 2 then f
  else if 1 / 2 < y - (f : α) then f + 1
  else if f % 2 = 0 then f
  else f + 1

/-- Round to the nearest binary floating-point number with a significand of
`p` bits (ties to even, unbounded exponent). -/
def roundBits {α : Type} [LinearOrderedField α] [FloorRing α] (p : Nat) (x : α) : α :=
  if x = 0 then 0
  else
    let e : Int := Int.log 2 |x| - ((p : Int) - 1)
    ((roundEven (x / (2 : α) ^ e) : Int) : α) * (2 : α) ^ e

/-- Rounding to `float` (24-bit significand). -/
def binary32 {α : Type} [LinearOrderedField α] [FloorRing α] (x : α) : α := roundBits 24 x

/-- Rounding to `double` (53-bit significand). -/
def binary64 {α : Type} [LinearOrderedField α] [FloorRing α] (x : α) : α := roundBits 53 x

/-- The `double` constant `M_PI` of `math.h`, `0x400921FB54442D18`. -/
def M_PI_double {α : Type} [Field α] : α := 884279719003555 / 2 ^ 48

/-- The constant `const float DEG_TO_RAD = M_PI / 180.0`: a `double` division
stored in a `float`. -/
def DEG_TO_RAD_fp {α : Type} [LinearOrderedField α] [FloorRing α] : α :=
  binary32 (binary64 (M_PI_double / 180))

/-- The locals `lAngle`, `tAngle`, `iAngle` of `DrawShadow`: a `float` product. -/
def radians_fp {α : Type} [LinearOrderedField α] [FloorRing α] (deg : α) : α :=
  binary32 (deg * DEG_TO_RAD_fp)

/-- The sums `lAngle + iAngle` and `tAngle + iAngle`: a `float` sum. -/
def angleSum_fp {α : Type} [LinearOrderedField α] [FloorRing α] (deg iDeg : α) : α :=
  binary32 (radians_fp deg + radians_fp iDeg)

/-- The argument `M_PI - (lAngle + iAngle)` of the denominator's `sin`: a
`double` subtraction. -/
def sinArgument_fp {α : Type} [LinearOrderedField α] [FloorRing α] (deg iDeg : α) : α :=
  binary64 (M_PI_double - angleSum_fp deg iDeg)

/-- The denominator of `CSED_Lead` as evaluated: the `double` sine of
`sinArgument_fp`; `sin` is the mathematical sine. -/
def leadDenominator_fp {α : Type} [LinearOrderedField α] [FloorRing α] (sin : α → α)
    (s : State α) : α :=
  binary64 (sin (sinArgument_fp s.LeadingAngle s.AngleIntersection))

/-- The denominator of `CSED_Trail` as evaluated. -/
def trailDenominator_fp {α : Type} [LinearOrderedField α] [FloorRing α] (sin : α → α)
    (s : State α) : α :=
  binary64 (sin (sinArgument_fp s.TrailingAngle s.AngleIntersection))

/-- One callback of the GLUT main loop that touches the core: the idle
callback, a button (or the `p`/`r`/`q` keys, which call `Buttons`), or a
GLUI write of a live variable. -/
inductive Event (α : Type) where
  | idle (now : Int)
  | button (id : Int) (now : Int)
  | live (id : SliderVals) (v : α)

/-- The effect of one callback; `none` when the process exits. -/
def step {α : Type} [Field α] (s : State α) : Event α → Option (State α)
  | .idle now => some (Animate now s)
  | .button id now => Buttons id now s
  | .live id v => some (writeLive id v s)

/-- The effect of a sequence of callbacks, in order. -/
def run {α : Type} [Field α] (s : State α) : List (Event α) → Option (State α)
  | [] => some s
  | e :: es => (step s e).bind fun s1 => run s1 es

/-- The clock readings the callbacks of a trace take, in order. -/
def clockReadings {α : Type} : List (Event α) → List Int
  | [] => []
  | .idle now :: es => now :: clockReadings es
  | .button _ now :: es => now :: clockReadings es
  | .live _ _ :: es => clockReadings es

/-- Whether a trace consists of `Animate` ticks and play/pause toggles only. -/
def onlyTicksAndToggles {α : Type} : List (Event α) → Bool
  | [] => true
  | .idle _ :: es => onlyTicksAndToggles es
  | .button id _ :: es => decide (id = PLAY) && onlyTicksAndToggles es
  | .live _ _ :: _ => false

/-- Whether the readings, starting after reading `c`, never go back. -/
def nondecreasingFrom (c : Int) : List Int → Bool
  | [] => true
  | t :: ts => decide (c ≤ t) && nondecreasingFrom t ts

/-- Whether a callback writes `CarSpeed` or `BikeSpeed`. -/
def Event.isSpeedWrite {α : Type} : Event α → Bool
  | .live .CSPEED _ => true
  | .live .BSPEED _ => true
  | _ => false

/-- Whether every write of `CarSpeed` or `BikeSpeed` in the trace, run from
`s`, happens while `Time = 0`. -/
def speedWritesAtTimeZero {α : Type} [Field α] [DecidableEq α] (s : State α) :
    List (Event α) → Bool
  | [] => true
  | e :: es =>
    (!e.isSpeedWrite || decide (s.Time = 0)) &&
      match step s e with
      | some s1 => speedWritesAtTimeZero s1 es
      | none => true

/-- Whether a trace consists of `Animate` ticks, play/pause toggles and writes
of live variables other than `CarSpeed` and `BikeSpeed`. -/
def speedsUnchanged {α : Type} : List (Event α) → Bool
  | [] => true
  | .idle _ :: es => speedsUnchanged es
  | .button id _ :: es => decide (id = PLAY) && speedsUnchanged es
  | .live id _ :: es =>
    decide (id ≠ SliderVals.CSPEED ∧ id ≠ SliderVals.BSPEED) && speedsUnchanged es

/-! ## Invariants of the kinematic model -/

/-- The clock invariant after a callback that ran at wall-clock time `c`:
`Frozen` is the negation of `play`, `Time` is not negative, and `Time` is at
most the simulation time the next running tick will compute: the seconds
since `animate_start_time` while running, `time_frozen` while paused. -/
def clockInv {α : Type} [LinearOrderedField α] (s : State α) (c : Int) : Prop :=
  s.Frozen = (!s.play) ∧ 0 ≤ s.Time ∧
    if s.play then s.Time ≤ ((c - s.animate_start_time : Int) : α) / 1000
    else s.Time ≤ ((s.time_frozen : Int) : α) / 1000

/-- The travelled distances are the elapsed time times the current speeds. -/
def travelInv {α : Type} [Field α] (s : State α) : Prop :=
  s.CarDistanceTravelled = s.Time * s.CarSpeed ∧
    s.BikeDistanceTravelled = s.Time * s.BikeSpeed

/-! ## The specification's vertices

Second definitions, written from the words of the specification's
`computeShadow` (steps 4 and 6), to compare `DrawShadow` with. -/

/-- C1. Whenever the car distance remaining is negative, `DrawShadow` emits no
vertex, whatever the three angles are. -/
theorem drawShadow_passed_intersection {α : Type} [LinearOrderedField α]
    (m : MathH α) (s : State α) (h : s.CarDistance < 0) :
    DrawShadow m s = [] := by
  unfold DrawShadow
  simp [h]

/-- Witness of C1: the default scene with the car one metre past the
intersection. -/
theorem drawShadow_passed_intersection_witness :
    (-1 : ℝ) < 0 ∧
      DrawShadow (MathH.mk Real.sin Real.cos Real.pi)
        { (initState : State ℝ) with
          AngleIntersection := 69, LeadingAngle := 194 / 10,
          TrailingAngle := 271 / 10, CarDistance := -1 } = [] :=
  ⟨by norm_num, drawShadow_passed_intersection _ _ (by norm_num)⟩

/-- C2. Whenever `180 - AngleIntersection < LeadingAngle`, `DrawShadow` emits
no vertex, for every car distance (negative or not) and trailing angle. -/
theorem drawShadow_leading_never_meets {α : Type} [LinearOrderedField α]
    (m : MathH α) (s : State α) (h : 180 - s.AngleIntersection < s.LeadingAngle) :
    DrawShadow m s = [] := by
  unfold DrawShadow
  simp [h]

/-- Witness of C2: intersection 170, leading 19.4, distance 50. -/
theorem drawShadow_leading_never_meets_witness :
    (180 : ℝ) - 170 < 194 / 10 ∧
      DrawShadow (MathH.mk Real.sin Real.cos Real.pi)
        { (initState : State ℝ) with
          AngleIntersection := 170, LeadingAngle := 194 / 10,
          TrailingAngle := 271 / 10, CarDistance := 50 } = [] :=
  ⟨by norm_num, drawShadow_leading_never_meets _ _ (by norm_num)⟩

/-- Over the reals, `sin (π - (a·π/180 + i·π/180))` is positive when
`0 < a + i < 180`. -/
theorem real_denominator_pos (a i : ℝ) (h0 : 0 < a + i) (h : a + i < 180) :
    0 < Real.sin (Real.pi - (a * (Real.pi / 180) + i * (Real.pi / 180))) := by
  rw [Real.sin_pi_sub]
  have hx : a * (Real.pi / 180) + i * (Real.pi / 180) = (a + i) * (Real.pi / 180) := by
    ring
  have hp : 0 < Real.pi / 180 := by positivity
  rw [hx]
  apply Real.sin_pos_of_pos_of_lt_pi
  · exact mul_pos h0 hp
  · calc (a + i) * (Real.pi / 180) < 180 * (Real.pi / 180) :=
          mul_lt_mul_of_pos_right h hp
      _ = Real.pi := by ring

/-- Over the reals, `CSED_Numerator` is positive when the car is before the
intersection and `0 < AngleIntersection < 180`. -/
theorem real_numerator_pos (s : State ℝ) (hd : 0 < s.CarDistance)
    (hi0 : 0 < s.AngleIntersection) (hi : s.AngleIntersection < 180) :
    0 < CSED_Numerator (MathH.mk Real.sin Real.cos Real.pi) s := by
  have hp : 0 < Real.pi / 180 := by positivity
  simp only [CSED_Numerator, DEG_TO_RAD]
  apply mul_pos hd
  apply Real.sin_pos_of_pos_of_lt_pi
  · exact mul_pos hi0 hp
  · calc s.AngleIntersection * (Real.pi / 180) < 180 * (Real.pi / 180) :=
          mul_lt_mul_of_pos_right hi hp
      _ = Real.pi := by ring

/-- The exact idealisation at a boundary input.  At intersection 135, leading
45, trailing 45 and distance 50 neither guard fires (`180 - 135 = 45` is not
`< 45`), `DrawShadow` emits its three vertices, and with exact arithmetic and
the exact `π` both law-of-sines denominators are zero.  The source does not
compute this: its `float` sum of the angles is never the `double` `M_PI`, and
the denominators it evaluates are nonzero (`denominator_fp_ne_zero`). -/
theorem exact_denominators_zero_at_boundary :
    (DrawShadow (MathH.mk Real.sin Real.cos Real.pi)
        { (initState : State ℝ) with
          AngleIntersection := 135, LeadingAngle := 45,
          TrailingAngle := 45, CarDistance := 50 }).length = 3 ∧
      ¬ ((180 : ℝ) - 135 < 45) ∧
      leadDenominator (MathH.mk Real.sin Real.cos Real.pi)
        { (initState : State ℝ) with
          AngleIntersection := 135, LeadingAngle := 45,
          TrailingAngle := 45, CarDistance := 50 } = 0 ∧
      trailDenominator (MathH.mk Real.sin Real.cos Real.pi)
        { (initState : State ℝ) with
          AngleIntersection := 135, LeadingAngle := 45,
          TrailingAngle := 45, CarDistance := 50 } = 0 := by
  have hz : Real.pi - (45 * (Real.pi / 180) + 135 * (Real.pi / 180)) = 0 := by ring
  refine ⟨?_, by norm_num, ?_, ?_⟩
  · unfold DrawShadow
    norm_num
  · simp only [leadDenominator, DEG_TO_RAD, hz, Real.sin_zero]
  · simp only [trailDenominator, DEG_TO_RAD, hz, Real.sin_zero]

/-- The exact idealisation of the edge distances.  Over the reals with the
exact `π`, for car distance `d > 0`, intersection angle `0 < i < 180` and
blind-spot angles `a ≥ 0` with `a + i < 180` (leading and trailing alike), the
law-of-sines denominators are nonzero and the edge distances are strictly
positive.  The machine evaluation agrees only away from `a + i = 180`
(`edge_distances_fp_positive`, `edge_distance_fp_negative`). -/
theorem edge_distances_positive (s : State ℝ) (hd : 0 < s.CarDistance)
    (hi0 : 0 < s.AngleIntersection) (hi : s.AngleIntersection < 180)
    (hl0 : 0 ≤ s.LeadingAngle) (hl : s.LeadingAngle + s.AngleIntersection < 180)
    (ht0 : 0 ≤ s.TrailingAngle) (ht : s.TrailingAngle + s.AngleIntersection < 180) :
    leadDenominator (MathH.mk Real.sin Real.cos Real.pi) s ≠ 0 ∧
      0 < CSED_Lead (MathH.mk Real.sin Real.cos Real.pi) s ∧
      trailDenominator (MathH.mk Real.sin Real.cos Real.pi) s ≠ 0 ∧
      0 < CSED_Trail (MathH.mk Real.sin Real.cos Real.pi) s := by
  have hL : 0 < leadDenominator (MathH.mk Real.sin Real.cos Real.pi) s := by
    simp only [leadDenominator, DEG_TO_RAD]
    exact real_denominator_pos _ _ (by linarith) hl
  have hT : 0 < trailDenominator (MathH.mk Real.sin Real.cos Real.pi) s := by
    simp only [trailDenominator, DEG_TO_RAD]
    exact real_denominator_pos _ _ (by linarith) ht
  have hN := real_numerator_pos s hd hi0 hi
  exact ⟨ne_of_gt hL, div_pos hN hL, ne_of_gt hT, div_pos hN hT⟩

/-- The exact idealisation at intersection 69, leading 19.4, trailing 27.1,
distance 50: positive leading and trailing edge distances. -/
theorem edge_distances_positive_witness :
    leadDenominator (MathH.mk Real.sin Real.cos Real.pi)
        { (initState : State ℝ) with
          AngleIntersection := 69, LeadingAngle := 194 / 10,
          TrailingAngle := 271 / 10, CarDistance := 50 } ≠ 0 ∧
      0 < CSED_Lead (MathH.mk Real.sin Real.cos Real.pi)
        { (initState : State ℝ) with
          AngleIntersection := 69, LeadingAngle := 194 / 10,
          TrailingAngle := 271 / 10, CarDistance := 50 } ∧
      trailDenominator (MathH.mk Real.sin Real.cos Real.pi)
        { (initState : State ℝ) with
          AngleIntersection := 69, LeadingAngle := 194 / 10,
          TrailingAngle := 271 / 10, CarDistance := 50 } ≠ 0 ∧
      0 < CSED_Trail (MathH.mk Real.sin Real.cos Real.pi)
        { (initState : State ℝ) with
          AngleIntersection := 69, LeadingAngle := 194 / 10,
          TrailingAngle := 271 / 10, CarDistance := 50 } :=
  edge_distances_positive
    { (initState : State ℝ) with
      AngleIntersection := 69, LeadingAngle := 194 / 10,
      TrailingAngle := 271 / 10, CarDistance := 50 }
    (by norm_num) (by norm_num) (by norm_num) (by norm_num) (by norm_num)
    (by norm_num) (by norm_num)

/-! ## The kinematic model: play/pause bookkeeping -/

/-- `Buttons` with id `PLAY` runs the body of `case PLAY:`. -/
theorem Buttons_PLAY_eq {α : Type} [Field α] (now : Int) (s : State α) :
    Buttons PLAY now s = some (Buttons_PLAY now s) := by
  simp [Buttons]

/-- The body of `case PLAY:` leaves the elapsed time, the travelled distances
and the speeds alone. -/
theorem Buttons_PLAY_frame {α : Type} (now : Int) (s : State α) :
    (Buttons_PLAY now s).Time = s.Time ∧
      (Buttons_PLAY now s).CarDistanceTravelled = s.CarDistanceTravelled ∧
      (Buttons_PLAY now s).BikeDistanceTravelled = s.BikeDistanceTravelled ∧
      (Buttons_PLAY now s).CarSpeed = s.CarSpeed ∧
      (Buttons_PLAY now s).BikeSpeed = s.BikeSpeed := by
  unfold Buttons_PLAY
  cases s.Frozen <;> simp

/-- Every callback keeps `Frozen = !play`. -/
theorem frozen_step {α : Type} [Field α] (s s1 : State α) (e : Event α)
    (h : s.Frozen = (!s.play)) (hs : step s e = some s1) :
    s1.Frozen = (!s1.play) := by
  cases e with
  | idle now =>
    simp only [step, Option.some.injEq] at hs
    subst hs
    unfold Animate
    split <;> simp [h]
  | button id now =>
    simp only [step, Buttons] at hs
    split_ifs at hs <;> simp only [Option.some.injEq] at hs
    · subst hs
      unfold Buttons_PLAY
      cases hp : s.play <;> simp [h, hp]
    · subst hs
      simp [Reset, Replay]
    · subst hs
      simp [Replay]
    · subst hs
      exact h
  | live id v =>
    simp only [step, Option.some.injEq] at hs
    subst hs
    cases id <;> simpa [writeLive] using h

/-- Every trace of callbacks keeps `Frozen = !play`. -/
theorem frozen_run {α : Type} [Field α] (evs : List (Event α)) (s s1 : State α)
    (h : s.Frozen = (!s.play)) (hr : run s evs = some s1) :
    s1.Frozen = (!s1.play) := by
  induction evs generalizing s with
  | nil =>
    simp only [run, Option.some.injEq] at hr
    subst hr
    exact h
  | cons e es ih =>
    simp only [run] at hr
    cases hs : step s e with
    | none => simp [hs] at hr
    | some s2 =>
      rw [hs] at hr
      exact ih s2 (frozen_step s s2 e h hs) hr

/-- After `Reset` the program is paused with `Frozen` set. -/
theorem frozen_Reset {α : Type} [Field α] (r : Int) (s0 : State α) :
    (Reset r s0).Frozen = (!(Reset r s0).play) := by
  simp [Reset, Replay]

/-- C7. Pause/resume invariance.  In every running state reached from `Reset`
by any callbacks, for wall-clock readings `t1 ≤ t2 ≤ t3`, pausing at `t1`,
resuming at `t2` and ticking at `t3` gives the same `Time`,
`CarDistanceTravelled` and `BikeDistanceTravelled` as one tick at reading
`t3 - (t2 - t1)` without the pause. -/
theorem pause_resume_invariance {α : Type} [Field α] (s0 s : State α) (r : Int)
    (evs : List (Event α)) (hr : run (Reset r s0) evs = some s)
    (hplay : s.play = true) (t1 t2 t3 : Int) (_h12 : t1 ≤ t2) (_h23 : t2 ≤ t3) :
    ∃ s1 s2 : State α,
      Buttons PLAY t1 s = some s1 ∧ s1.play = false ∧
      Buttons PLAY t2 s1 = some s2 ∧ s2.play = true ∧
      (Animate t3 s2).Time = (Animate (t3 - (t2 - t1)) s).Time ∧
      (Animate t3 s2).CarDistanceTravelled =
        (Animate (t3 - (t2 - t1)) s).CarDistanceTravelled ∧
      (Animate t3 s2).BikeDistanceTravelled =
        (Animate (t3 - (t2 - t1)) s).BikeDistanceTravelled := by
  have hf : s.Frozen = false := by
    rw [frozen_run evs _ s (frozen_Reset r s0) hr, hplay]
    rfl
  have hc : t3 - (t2 - (t1 - s.animate_start_time)) =
      t3 - (t2 - t1) - s.animate_start_time := by ring
  refine ⟨Buttons_PLAY t1 s, Buttons_PLAY t2 (Buttons_PLAY t1 s),
    Buttons_PLAY_eq t1 s, ?_, Buttons_PLAY_eq t2 _, ?_, ?_, ?_, ?_⟩ <;>
    simp [Buttons_PLAY, Animate, hplay, hf, hc]

/-- Witness of C7: from the default scene, play at 0, then pause at 1000,
resume at 4000 and tick at 5000: `Time` is 2 seconds, as after one tick at
reading 2000. -/
theorem pause_resume_invariance_witness :
    ∃ s1 s2 : State ℚ,
      Buttons PLAY 1000 (Buttons_PLAY 0 (Reset 0 initState)) = some s1 ∧
      s1.play = false ∧
      Buttons PLAY 4000 s1 = some s2 ∧ s2.play = true ∧
      (Animate 5000 s2).Time =
        (Animate (5000 - (4000 - 1000)) (Buttons_PLAY 0 (Reset 0 initState))).Time ∧
      (Animate 5000 s2).CarDistanceTravelled =
        (Animate (5000 - (4000 - 1000))
          (Buttons_PLAY 0 (Reset 0 initState))).CarDistanceTravelled ∧
      (Animate 5000 s2).BikeDistanceTravelled =
        (Animate (5000 - (4000 - 1000))
          (Buttons_PLAY 0 (Reset 0 initState))).BikeDistanceTravelled :=
  pause_resume_invariance (initState : State ℚ) (Buttons_PLAY 0 (Reset 0 initState)) 0
    [Event.button PLAY 0] (by simp [run, step, Buttons_PLAY_eq])
    (by simp [Buttons_PLAY, Reset, Replay]) 1000 4000 5000 (by decide) (by decide)

/-! ## The kinematic model: travelled distance and elapsed time -/

/-- A callback keeps `travelInv`, provided a write of a speed happens only
while `Time = 0`. -/
theorem travel_step {α : Type} [Field α] (s s1 : State α) (e : Event α)
    (h : travelInv s) (hw : e.isSpeedWrite = true → s.Time = 0)
    (hs : step s e = some s1) : travelInv s1 := by
  obtain ⟨hc, hb⟩ := h
  cases e with
  | idle now =>
    simp only [step, Option.some.injEq] at hs
    subst hs
    unfold Animate travelInv
    split
    · simp only [hc, hb]
      constructor <;> ring
    · exact ⟨hc, hb⟩
  | button id now =>
    simp only [step, Buttons] at hs
    split_ifs at hs <;> simp only [Option.some.injEq] at hs
    · subst hs
      obtain ⟨h1, h2, h3, h4, h5⟩ := Buttons_PLAY_frame now s
      simp only [travelInv, h1, h2, h3, h4, h5]
      exact ⟨hc, hb⟩
    · subst hs
      simp [Reset, Replay, travelInv]
    · subst hs
      simp [Replay, travelInv]
    · subst hs
      exact ⟨hc, hb⟩
  | live id v =>
    simp only [step, Option.some.injEq] at hs
    subst hs
    cases id
    case CSPEED =>
      have ht : s.Time = 0 := hw rfl
      simp only [travelInv, writeLive, hc, hb, ht, zero_mul, and_self]
    case BSPEED =>
      have ht : s.Time = 0 := hw rfl
      simp only [travelInv, writeLive, hc, hb, ht, zero_mul, and_self]
    all_goals exact ⟨hc, hb⟩

/-- A trace keeps `travelInv`, provided its writes of a speed happen only
while `Time = 0`. -/
theorem travel_run {α : Type} [Field α] [DecidableEq α] (evs : List (Event α))
    (s s1 : State α) (h : travelInv s) (hw : speedWritesAtTimeZero s evs = true)
    (hr : run s evs = some s1) : travelInv s1 := by
  induction evs generalizing s with
  | nil =>
    simp only [run, Option.some.injEq] at hr
    subst hr
    exact h
  | cons e es ih =>
    simp only [run] at hr
    cases hs : step s e with
    | none => simp [hs] at hr
    | some s2 =>
      rw [hs] at hr
      simp only [speedWritesAtTimeZero, hs, Bool.and_eq_true, Bool.or_eq_true,
        Bool.not_eq_true', decide_eq_true_eq] at hw
      refine ih s2 (travel_step s s2 e h ?_ hs) hw.2 hr
      intro he
      rcases hw.1 with h0 | h0
      · rw [he] at h0
        exact absurd h0 (by decide)
      · exact h0

/-- After `Reset` nothing has been travelled and no time has elapsed. -/
theorem travel_Reset {α : Type} [Field α] (r : Int) (s0 : State α) :
    travelInv (Reset r s0) := by
  simp [Reset, Replay, travelInv]

/-- C8, as stated, fails.  From the default scene: play at 0, tick at 1000
(one second at 18 m/s), then write `CarSpeed := 10`.  `Display` computes
`CarDistance = 100 - 18 = 82`, while `CarStart - Time * CarSpeed = 90`. -/
theorem display_not_function_of_time :
    ∃ s : State ℚ,
      run (Reset 0 initState)
        [Event.button PLAY 0, Event.idle 1000, Event.live SliderVals.CSPEED 10] = some s ∧
      (Display s).CarDistance = 82 ∧
      s.CarStart - s.Time * s.CarSpeed = 90 ∧
      (Display s).CarDistance ≠ s.CarStart - s.Time * s.CarSpeed := by
  refine ⟨_, rfl, ?_, ?_, ?_⟩ <;>
    norm_num [step, Buttons, PLAY, Buttons_PLAY, Reset, Replay, Animate, writeLive,
      Display]

/-- C8, amended.  In every state reached from `Reset` by any callbacks
(ticks, buttons, writes of the live variables) in which `CarSpeed` and
`BikeSpeed` are written only while `Time = 0`, `Display` computes
`CarDistance = CarStart - Time * CarSpeed` and
`BikeDistance = BikeStart - Time * BikeSpeed`. -/
theorem display_distance_of_time {α : Type} [Field α] [DecidableEq α]
    (s0 s : State α) (r : Int) (evs : List (Event α))
    (hw : speedWritesAtTimeZero (Reset r s0) evs = true)
    (hr : run (Reset r s0) evs = some s) :
    (Display s).CarDistance = s.CarStart - s.Time * s.CarSpeed ∧
      (Display s).BikeDistance = s.BikeStart - s.Time * s.BikeSpeed := by
  obtain ⟨hc, hb⟩ := travel_run evs _ s (travel_Reset r s0) hw hr
  simp only [Display, hc, hb, and_self]

/-- Witness of C8 (amended): the car speed is set to 30 before play, the car
start to 200 after one second of simulation. -/
theorem display_distance_of_time_witness :
    speedWritesAtTimeZero (Reset 0 (initState : State ℚ))
        [Event.live SliderVals.CSPEED 30, Event.button PLAY 0, Event.idle 1000,
          Event.live SliderVals.CSTART 200] = true ∧
      (Display (writeLive SliderVals.CSTART 200 (Animate 1000 (Buttons_PLAY 0
        (writeLive SliderVals.CSPEED 30 (Reset 0 (initState : State ℚ))))))).CarDistance =
        200 - 1 * 30 :=
  ⟨by simp [speedWritesAtTimeZero, step, Event.isSpeedWrite, Buttons_PLAY_eq, Reset,
      Replay, writeLive, Buttons_PLAY],
    by
      have h := (display_distance_of_time (initState : State ℚ)
        (writeLive SliderVals.CSTART 200 (Animate 1000 (Buttons_PLAY 0
          (writeLive SliderVals.CSPEED 30 (Reset 0 (initState : State ℚ)))))) 0
        [Event.live SliderVals.CSPEED 30, Event.button PLAY 0, Event.idle 1000,
          Event.live SliderVals.CSTART 200]
        (by simp [speedWritesAtTimeZero, step, Event.isSpeedWrite, Buttons_PLAY_eq,
          Reset, Replay, writeLive, Buttons_PLAY])
        (by simp [run, step, Buttons_PLAY_eq])).1
      rw [h]
      norm_num [writeLive, Animate, Buttons_PLAY, Reset, Replay]⟩

/-! ## The kinematic model: monotone clocks -/

/-- Seconds since `animate_start_time` grow with the wall clock. -/
theorem seconds_mono {α : Type} [LinearOrderedField α] (a c now : Int) (h : c ≤ now) :
    ((c - a : Int) : α) / 1000 ≤ ((now - a : Int) : α) / 1000 := by
  have h1 : ((c - a : Int) : α) ≤ ((now - a : Int) : α) := Int.cast_le.mpr (by omega)
  exact div_le_div_of_nonneg_right h1 (by norm_num)

/-- The clock invariant survives a later reading. -/
theorem clockInv_mono {α : Type} [LinearOrderedField α] (s : State α) (c now : Int)
    (h : clockInv s c) (hc : c ≤ now) : clockInv s now := by
  obtain ⟨hf, h0, ht⟩ := h
  refine ⟨hf, h0, ?_⟩
  split
  · rename_i hp
    rw [if_pos hp] at ht
    exact le_trans ht (seconds_mono _ _ _ hc)
  · rename_i hp
    rw [if_neg hp] at ht
    exact ht

/-- `Replay` establishes the clock invariant. -/
theorem clockInv_Replay {α : Type} [LinearOrderedField α] (now : Int) (s : State α) :
    clockInv (Replay now s) now := by
  simp [clockInv, Replay]

/-- A tick at a reading not earlier than the last one keeps the clock
invariant. -/
theorem clockInv_Animate {α : Type} [LinearOrderedField α] (s : State α) (c now : Int)
    (h : clockInv s c) (hc : c ≤ now) : clockInv (Animate now s) now := by
  have hm := clockInv_mono s c now h hc
  obtain ⟨hf, h0, ht⟩ := hm
  unfold Animate
  split
  · rename_i hp
    rw [if_pos hp] at ht
    refine ⟨hf, le_trans h0 ht, ?_⟩
    simp only [hp, if_true]
    exact le_refl _
  · exact ⟨hf, h0, ht⟩

/-- A play/pause toggle at a reading not earlier than the last one keeps the
clock invariant. -/
theorem clockInv_Buttons_PLAY {α : Type} [LinearOrderedField α] (s : State α)
    (c now : Int) (h : clockInv s c) (hc : c ≤ now) :
    clockInv (Buttons_PLAY now s) now := by
  obtain ⟨hf, h0, ht⟩ := clockInv_mono s c now h hc
  cases hp : s.play
  · rw [hp] at hf
    simp only [hp, Bool.false_eq_true, if_false] at ht
    have hx : now - (now - s.time_frozen) = s.time_frozen := by ring
    simp only [clockInv, Buttons_PLAY, hp, hf, Bool.not_true, Bool.not_false,
      Bool.false_eq_true, if_false, if_true, hx, true_and]
    exact ⟨h0, ht⟩
  · rw [hp] at hf
    simp only [hp, if_true] at ht
    simp only [clockInv, Buttons_PLAY, hp, hf, Bool.not_true, Bool.not_false,
      Bool.false_eq_true, if_false, if_true, true_and]
    exact ⟨h0, ht⟩

/-- A button callback at a time not earlier than the last one keeps the clock
invariant. -/
theorem clockInv_Buttons {α : Type} [LinearOrderedField α] (s s1 : State α)
    (id c now : Int) (h : clockInv s c) (hc : c ≤ now)
    (hs : Buttons id now s = some s1) : clockInv s1 now := by
  simp only [Buttons] at hs
  split_ifs at hs <;> simp only [Option.some.injEq] at hs
  · subst hs
    exact clockInv_Buttons_PLAY s c now h hc
  · subst hs
    exact clockInv_Replay now _
  · subst hs
    exact clockInv_Replay now _
  · subst hs
    exact clockInv_mono s c now h hc

/-- A write of a live variable keeps the clock invariant. -/
theorem clockInv_writeLive {α : Type} [LinearOrderedField α] (s : State α)
    (id : SliderVals) (v : α) (c : Int) (h : clockInv s c) :
    clockInv (writeLive id v s) c := by
  cases id <;> exact h

/-- A trace whose callbacks run at non-decreasing times keeps the clock
invariant; `now` is a reading not earlier than the last callback. -/
theorem clockInv_run {α : Type} [LinearOrderedField α] (evs : List (Event α))
    (s s1 : State α) (c now : Int) (h : clockInv s c)
    (hm : nondecreasingFrom c (clockReadings evs ++ [now]) = true)
    (hr : run s evs = some s1) : clockInv s1 now := by
  induction evs generalizing s c with
  | nil =>
    simp only [clockReadings, List.nil_append, nondecreasingFrom, Bool.and_true,
      decide_eq_true_eq] at hm
    simp only [run, Option.some.injEq] at hr
    subst hr
    exact clockInv_mono s c now h hm
  | cons e es ih =>
    cases e with
    | idle t =>
      simp only [clockReadings, List.cons_append, nondecreasingFrom, Bool.and_eq_true,
        decide_eq_true_eq] at hm
      simp only [run, step, Option.some_bind] at hr
      exact ih (Animate t s) t (clockInv_Animate s c t h hm.1) hm.2 hr
    | button id t =>
      simp only [clockReadings, List.cons_append, nondecreasingFrom, Bool.and_eq_true,
        decide_eq_true_eq] at hm
      simp only [run, step] at hr
      cases hb : Buttons id t s with
      | none => simp [hb] at hr
      | some s2 =>
        rw [hb] at hr
        exact ih s2 t (clockInv_Buttons s s2 id c t h hm.1 hb) hm.2 hr
    | live id v =>
      simp only [clockReadings] at hm
      simp only [run, step, Option.some_bind] at hr
      exact ih (writeLive id v s) c (clockInv_writeLive s id v c h) hm hr

/-- Under the clock invariant a tick never moves `Time` back, keeps it
non-negative, and adds a non-negative time delta. -/
theorem clockInv_tick {α : Type} [LinearOrderedField α] (s : State α) (now : Int)
    (h : clockInv s now) :
    s.Time ≤ (Animate now s).Time ∧ 0 ≤ (Animate now s).Time := by
  obtain ⟨_, h0, ht⟩ := h
  unfold Animate
  split
  · rename_i hp
    rw [if_pos hp] at ht
    exact ⟨ht, le_trans h0 ht⟩
  · exact ⟨le_refl _, h0⟩

/-- C9. Monotonicity.  In every state reached from `Replay` by `Animate` ticks
and play/pause toggles at non-decreasing wall-clock readings, with
`CarSpeed ≥ 0`, a further tick (at a reading not earlier than the last one)
leaves `CarStart` alone and the car distance remaining
`CarStart - CarDistanceTravelled` computed by `Display` at most its value
before the tick while running, and equal to it while paused. -/
theorem car_distance_monotone {α : Type} [LinearOrderedField α] (s0 s : State α)
    (r now : Int) (evs : List (Event α)) (_htt : onlyTicksAndToggles evs = true)
    (hm : nondecreasingFrom r (clockReadings evs ++ [now]) = true)
    (hr : run (Replay r s0) evs = some s) (hv : 0 ≤ s.CarSpeed) :
    (Animate now s).CarStart = s.CarStart ∧
      (s.play = true → (Display (Animate now s)).CarDistance ≤ (Display s).CarDistance) ∧
      (s.play = false → (Display (Animate now s)).CarDistance = (Display s).CarDistance) := by
  have hinv := clockInv_run evs _ s r now (clockInv_Replay r s0) hm hr
  obtain ⟨_, _, ht⟩ := hinv
  refine ⟨?_, ?_, ?_⟩
  · unfold Animate
    split <;> rfl
  · intro hp
    rw [if_pos hp] at ht
    have hdt : 0 ≤ (((now - s.animate_start_time : Int) : α) / 1000 - s.Time) * s.CarSpeed :=
      mul_nonneg (sub_nonneg.mpr ht) hv
    simp only [Display, Animate, hp, if_true]
    linarith
  · intro hp
    simp [Animate, hp]

/-- Witness of C9: replay at 0, play at 100, tick at 1100, then a tick at
2100 at the default speed of 18 m/s. -/
theorem car_distance_monotone_witness :
    (Animate 2100 (Animate 1100 (Buttons_PLAY 100
        (Replay 0 (Reset 0 (initState : State ℚ)))))).CarStart =
        (Animate 1100 (Buttons_PLAY 100 (Replay 0 (Reset 0 (initState : State ℚ))))).CarStart ∧
      ((Animate 1100 (Buttons_PLAY 100
          (Replay 0 (Reset 0 (initState : State ℚ))))).play = true →
        (Display (Animate 2100 (Animate 1100 (Buttons_PLAY 100
          (Replay 0 (Reset 0 (initState : State ℚ))))))).CarDistance ≤
        (Display (Animate 1100 (Buttons_PLAY 100
          (Replay 0 (Reset 0 (initState : State ℚ)))))).CarDistance) ∧
      ((Animate 1100 (Buttons_PLAY 100
          (Replay 0 (Reset 0 (initState : State ℚ))))).play = false →
        (Display (Animate 2100 (Animate 1100 (Buttons_PLAY 100
          (Replay 0 (Reset 0 (initState : State ℚ))))))).CarDistance =
        (Display (Animate 1100 (Buttons_PLAY 100
          (Replay 0 (Reset 0 (initState : State ℚ)))))).CarDistance) :=
  car_distance_monotone (Reset 0 (initState : State ℚ))
    (Animate 1100 (Buttons_PLAY 100 (Replay 0 (Reset 0 (initState : State ℚ)))))
    0 2100 [Event.button PLAY 100, Event.idle 1100]
    (by simp [onlyTicksAndToggles])
    (by simp [clockReadings, nondecreasingFrom])
    (by simp [run, step, Buttons_PLAY_eq])
    (by norm_num [Animate, Buttons_PLAY, Replay, Reset])

/-- C10, as stated, fails: `Animate` applies no clamp.  Reset and play at
reading 1000, tick at 2000 (`Time = 1`), then a tick with the earlier reading
500: `Time` becomes `-1/2`, below its value before the tick and below zero. -/
theorem animate_not_clamped :
    (Animate 2000 (Buttons_PLAY 1000 (Reset 1000 (initState : State ℚ)))).Time = 1 ∧
      (Animate 500 (Animate 2000
        (Buttons_PLAY 1000 (Reset 1000 (initState : State ℚ))))).Time = -1 / 2 ∧
      (Animate 500 (Animate 2000
        (Buttons_PLAY 1000 (Reset 1000 (initState : State ℚ))))).Time <
        (Animate 2000 (Buttons_PLAY 1000 (Reset 1000 (initState : State ℚ)))).Time ∧
      (Animate 500 (Animate 2000
        (Buttons_PLAY 1000 (Reset 1000 (initState : State ℚ))))).Time < 0 := by
  norm_num [Animate, Buttons_PLAY, Reset, Replay]

/-- C10, amended.  In every state reached from `Reset` by callbacks run at
non-decreasing wall-clock times, a tick at a reading not earlier than the
last one leaves `Time` at least its value before the tick and non-negative;
a running tick sets `Time` to the seconds since `animate_start_time`, with no
clamp. -/
theorem time_monotone_of_monotone_clock {α : Type} [LinearOrderedField α]
    (s0 s : State α) (r now : Int) (evs : List (Event α))
    (hm : nondecreasingFrom r (clockReadings evs ++ [now]) = true)
    (hr : run (Reset r s0) evs = some s) :
    s.Time ≤ (Animate now s).Time ∧ 0 ≤ (Animate now s).Time ∧
      (s.play = true →
        (Animate now s).Time = ((now - s.animate_start_time : Int) : α) / 1000) := by
  have hinv := clockInv_run evs _ s r now (clockInv_Replay r _) hm hr
  obtain ⟨h1, h2⟩ := clockInv_tick s now hinv
  refine ⟨h1, h2, ?_⟩
  intro hp
  simp [Animate, hp]

/-- Witness of C10 (amended): reset and play at 1000, tick at 2000, then a
tick at 2500. -/
theorem time_monotone_of_monotone_clock_witness :
    (Animate 2000 (Buttons_PLAY 1000 (Reset 1000 (initState : State ℚ)))).Time ≤
        (Animate 2500 (Animate 2000
          (Buttons_PLAY 1000 (Reset 1000 (initState : State ℚ))))).Time ∧
      0 ≤ (Animate 2500 (Animate 2000
          (Buttons_PLAY 1000 (Reset 1000 (initState : State ℚ))))).Time ∧
      ((Animate 2000 (Buttons_PLAY 1000 (Reset 1000 (initState : State ℚ)))).play = true →
        (Animate 2500 (Animate 2000
          (Buttons_PLAY 1000 (Reset 1000 (initState : State ℚ))))).Time =
        ((2500 - (Animate 2000 (Buttons_PLAY 1000
          (Reset 1000 (initState : State ℚ)))).animate_start_time : Int) : ℚ) / 1000) :=
  time_monotone_of_monotone_clock (initState : State ℚ)
    (Animate 2000 (Buttons_PLAY 1000 (Reset 1000 (initState : State ℚ))))
    1000 2500 [Event.button PLAY 1000, Event.idle 2000]
    (by simp [clockReadings, nondecreasingFrom])
    (by simp [run, step, Buttons_PLAY_eq])

/-! ## The kinematic model: frame conditions of the callbacks -/

/-- C11. For every state, `Replay` sets `Time` and both travelled distances
to 0, so that `CarDistance = CarStart` and `BikeDistance = BikeStart` (as
stored by `Replay` and as recomputed by `Display`), sets `play` to false, and
leaves the seven scene-configuration fields as they were. -/
theorem Replay_effect {α : Type} [Field α] (now : Int) (s : State α) :
    Buttons REPLAY now s = some (Replay now s) ∧
      (Replay now s).Time = 0 ∧
      (Replay now s).CarDistanceTravelled = 0 ∧
      (Replay now s).BikeDistanceTravelled = 0 ∧
      (Replay now s).CarDistance = s.CarStart ∧
      (Replay now s).BikeDistance = s.BikeStart ∧
      (Display (Replay now s)).CarDistance = s.CarStart ∧
      (Display (Replay now s)).BikeDistance = s.BikeStart ∧
      (Replay now s).play = false ∧
      (Replay now s).AngleIntersection = s.AngleIntersection ∧
      (Replay now s).LeadingAngle = s.LeadingAngle ∧
      (Replay now s).TrailingAngle = s.TrailingAngle ∧
      (Replay now s).CarStart = s.CarStart ∧
      (Replay now s).CarSpeed = s.CarSpeed ∧
      (Replay now s).BikeStart = s.BikeStart ∧
      (Replay now s).BikeSpeed = s.BikeSpeed := by
  refine ⟨by simp [Buttons, REPLAY, PLAY, RESET], ?_⟩
  simp [Replay, Display]

/-- C12. For every state, `Reset` yields the default scene (69, 19.4, 27.1,
100, 18, 39, 7), elapsed time 0 and `play = false`, and its result does not
depend on the state before the call. -/
theorem Reset_effect {α : Type} [Field α] (now : Int) (s : State α) :
    Buttons RESET now s = some (Reset now s) ∧
      (Reset now s).AngleIntersection = 69 ∧
      (Reset now s).LeadingAngle = 194 / 10 ∧
      (Reset now s).TrailingAngle = 271 / 10 ∧
      (Reset now s).CarStart = 100 ∧
      (Reset now s).CarSpeed = 18 ∧
      (Reset now s).BikeStart = 39 ∧
      (Reset now s).BikeSpeed = 7 ∧
      (Reset now s).Time = 0 ∧
      (Reset now s).play = false ∧
      ∀ s2 : State α, Reset now s2 = Reset now s := by
  refine ⟨by simp [Buttons, RESET, PLAY], ?_⟩
  simp [Reset, Replay]

/-- C13. For every state and reading, `Buttons` with id `PLAY` flips `play`
(and its mirror `Frozen`) and leaves `Time`, both travelled distances, both
stored distances and the seven scene-configuration fields as they were: apart
from the two flags, only `animate_start_time` and `time_frozen` may differ. -/
theorem Buttons_PLAY_effect {α : Type} [Field α] (now : Int) (s : State α) :
    Buttons PLAY now s = some (Buttons_PLAY now s) ∧
      (Buttons_PLAY now s).play = (!s.play) ∧
      (Buttons_PLAY now s).Time = s.Time ∧
      (Buttons_PLAY now s).CarDistanceTravelled = s.CarDistanceTravelled ∧
      (Buttons_PLAY now s).BikeDistanceTravelled = s.BikeDistanceTravelled ∧
      (Buttons_PLAY now s).AngleIntersection = s.AngleIntersection ∧
      (Buttons_PLAY now s).LeadingAngle = s.LeadingAngle ∧
      (Buttons_PLAY now s).TrailingAngle = s.TrailingAngle ∧
      (Buttons_PLAY now s).CarStart = s.CarStart ∧
      (Buttons_PLAY now s).CarSpeed = s.CarSpeed ∧
      (Buttons_PLAY now s).BikeStart = s.BikeStart ∧
      (Buttons_PLAY now s).BikeSpeed = s.BikeSpeed ∧
      Buttons_PLAY now s =
        { s with
          play := !s.play
          Frozen := !s.Frozen
          animate_start_time := (Buttons_PLAY now s).animate_start_time
          time_frozen := (Buttons_PLAY now s).time_frozen } := by
  refine ⟨by simp [Buttons], ?_⟩
  unfold Buttons_PLAY
  cases s.Frozen <;> simp

/-- C14. For every state with `play = false` and every reading, `Animate`
returns the state unchanged: in particular `Time`, both travelled distances,
`animate_start_time`, `time_frozen` and `play` are as before. -/
theorem Animate_paused {α : Type} [Field α] (now : Int) (s : State α)
    (h : s.play = false) :
    Animate now s = s ∧
      (Animate now s).Time = s.Time ∧
      (Animate now s).CarDistanceTravelled = s.CarDistanceTravelled ∧
      (Animate now s).BikeDistanceTravelled = s.BikeDistanceTravelled ∧
      (Animate now s).animate_start_time = s.animate_start_time ∧
      (Animate now s).time_frozen = s.time_frozen ∧
      (Animate now s).play = s.play := by
  have he : Animate now s = s := by simp [Animate, h]
  simp [he]

/-- Witness of C14: the default scene, paused after one second of play, ticked
at reading 9000. -/
theorem Animate_paused_witness :
    (Buttons_PLAY 1000 (Animate 1000 (Buttons_PLAY 0
        (Reset 0 (initState : State ℚ))))).play = false ∧
      (Animate 9000 (Buttons_PLAY 1000 (Animate 1000 (Buttons_PLAY 0
        (Reset 0 (initState : State ℚ)))))).Time = 1 :=
  ⟨by simp [Buttons_PLAY, Animate, Reset, Replay],
    by
      rw [(Animate_paused 9000 (Buttons_PLAY 1000 (Animate 1000 (Buttons_PLAY 0
        (Reset 0 (initState : State ℚ))))) (by simp [Buttons_PLAY, Animate, Reset, Replay])).1]
      norm_num [Buttons_PLAY, Animate, Reset, Replay]⟩

/-! ## The kinematic model: telescoping and the start of play -/

/-- `Replay` leaves nothing travelled and no time elapsed. -/
theorem travel_Replay {α : Type} [Field α] (r : Int) (s0 : State α) :
    travelInv (Replay r s0) := by
  simp [Replay, travelInv]

/-- A tick leaves the speeds alone. -/
theorem Animate_speeds {α : Type} [Field α] (now : Int) (s : State α) :
    (Animate now s).CarSpeed = s.CarSpeed ∧ (Animate now s).BikeSpeed = s.BikeSpeed := by
  unfold Animate
  split <;> exact ⟨rfl, rfl⟩

/-- Along a trace of ticks, toggles and writes of live variables other than
the speeds, `travelInv` is kept and the speeds stay what they were. -/
theorem travel_speedsUnchanged {α : Type} [Field α] (evs : List (Event α))
    (s s1 : State α) (h : travelInv s) (hu : speedsUnchanged evs = true)
    (hr : run s evs = some s1) :
    travelInv s1 ∧ s1.CarSpeed = s.CarSpeed ∧ s1.BikeSpeed = s.BikeSpeed := by
  induction evs generalizing s with
  | nil =>
    simp only [run, Option.some.injEq] at hr
    subst hr
    exact ⟨h, rfl, rfl⟩
  | cons e es ih =>
    cases e with
    | idle t =>
      simp only [speedsUnchanged] at hu
      have hs : step s (Event.idle t) = some (Animate t s) := rfl
      simp only [run, step, Option.some_bind] at hr
      obtain ⟨h1, h2, h3⟩ :=
        ih (Animate t s) (travel_step s _ _ h (by simp [Event.isSpeedWrite]) hs) hu hr
      exact ⟨h1, h2.trans (Animate_speeds t s).1, h3.trans (Animate_speeds t s).2⟩
    | button id t =>
      simp only [speedsUnchanged, Bool.and_eq_true, decide_eq_true_eq] at hu
      obtain ⟨hid, hu⟩ := hu
      subst hid
      have hs : step s (Event.button PLAY t) = some (Buttons_PLAY t s) :=
        Buttons_PLAY_eq t s
      simp only [run, hs, Option.some_bind] at hr
      obtain ⟨h1, h2, h3⟩ :=
        ih (Buttons_PLAY t s) (travel_step s _ _ h (by simp [Event.isSpeedWrite]) hs) hu hr
      obtain ⟨_, _, _, h4, h5⟩ := Buttons_PLAY_frame t s
      exact ⟨h1, h2.trans h4, h3.trans h5⟩
    | live id v =>
      simp only [speedsUnchanged, Bool.and_eq_true, decide_eq_true_eq] at hu
      obtain ⟨⟨hc, hb⟩, hu⟩ := hu
      have hs : step s (Event.live id v) = some (writeLive id v s) := rfl
      have hw : (Event.live id v : Event α).isSpeedWrite = true → s.Time = 0 := by
        cases id <;> simp [Event.isSpeedWrite] at hc hb ⊢
      simp only [run, step, Option.some_bind] at hr
      obtain ⟨h1, h2, h3⟩ := ih (writeLive id v s) (travel_step s _ _ h hw hs) hu hr
      have hk : (writeLive id v s).CarSpeed = s.CarSpeed ∧
          (writeLive id v s).BikeSpeed = s.BikeSpeed := by
        cases id <;> simp [writeLive] at hc hb ⊢
      exact ⟨h1, h2.trans hk.1, h3.trans hk.2⟩

/-- C16. Telescoping invariant.  In every state reached from `Replay` by
`Animate` ticks and play/pause toggles (and writes of live variables other
than the speeds), `CarSpeed` and `BikeSpeed` are what they were at `Replay`,
`CarDistanceTravelled = Time * CarSpeed` and
`BikeDistanceTravelled = Time * BikeSpeed`, hence `Display` computes
`CarDistance = CarStart - Time * CarSpeed` and
`BikeDistance = BikeStart - Time * BikeSpeed`. -/
theorem travelled_telescopes {α : Type} [Field α] (s0 s : State α) (r : Int)
    (evs : List (Event α)) (hu : speedsUnchanged evs = true)
    (hr : run (Replay r s0) evs = some s) :
    s.CarSpeed = s0.CarSpeed ∧ s.BikeSpeed = s0.BikeSpeed ∧
      s.CarDistanceTravelled = s.Time * s.CarSpeed ∧
      s.BikeDistanceTravelled = s.Time * s.BikeSpeed ∧
      (Display s).CarDistance = s.CarStart - s.Time * s.CarSpeed ∧
      (Display s).BikeDistance = s.BikeStart - s.Time * s.BikeSpeed := by
  obtain ⟨⟨hc, hb⟩, h2, h3⟩ :=
    travel_speedsUnchanged evs _ s (travel_Replay r s0) hu hr
  refine ⟨h2, h3, hc, hb, ?_, ?_⟩
  · simp only [Display, hc]
  · simp only [Display, hb]

/-- Witness of C16: replay of the default scene at 0, play at 500, tick at
1500, pause at 2000, tick at 2500, resume at 3000, tick at 4500: three
seconds of simulation (500 to 2000 and 3000 to 4500), 54 metres by car. -/
theorem travelled_telescopes_witness :
    ∃ s : State ℚ,
      run (Replay 0 (Reset 0 initState))
        [Event.button PLAY 500, Event.idle 1500, Event.button PLAY 2000,
          Event.idle 2500, Event.button PLAY 3000, Event.idle 4500] = some s ∧
      s.Time = 3 ∧ s.CarDistanceTravelled = 54 ∧
      s.CarDistanceTravelled = s.Time * s.CarSpeed :=
  ⟨_, rfl,
    by norm_num [Animate, Buttons_PLAY, Replay, Reset],
    by norm_num [Animate, Buttons_PLAY, Replay, Reset],
    (travelled_telescopes (Reset 0 (initState : State ℚ)) _ 0
      [Event.button PLAY 500, Event.idle 1500, Event.button PLAY 2000,
        Event.idle 2500, Event.button PLAY 3000, Event.idle 4500]
      (by simp [speedsUnchanged]) rfl).2.2.1⟩

/-- C17. Simulation time starts at 0 when play is first pressed: for readings
`r ≤ p ≤ q`, `Replay` at `r`, then `Buttons` with id `PLAY` at `p`, then
`Animate` at `q` gives `Time = (q - p) / 1000`, whatever `r` is. -/
theorem time_starts_at_play {α : Type} [Field α] (s0 : State α) (r p q : Int)
    (_hrp : r ≤ p) (_hpq : p ≤ q) :
    run s0 [Event.button REPLAY r, Event.button PLAY p, Event.idle q] =
        some (Animate q (Buttons_PLAY p (Replay r s0))) ∧
      (Animate q (Buttons_PLAY p (Replay r s0))).Time = ((q - p : Int) : α) / 1000 ∧
      (Animate q (Buttons_PLAY p (Replay r s0))).Time = ((q : α) - (p : α)) / 1000 := by
  refine ⟨by simp [run, step, Buttons, REPLAY, PLAY, RESET], ?_, ?_⟩ <;>
    simp [Animate, Buttons_PLAY, Replay]

/-- Witness of C17: replay at 250, play at 4000, tick at 5500 gives one and a
half seconds. -/
theorem time_starts_at_play_witness :
    (Animate 5500 (Buttons_PLAY 4000 (Replay 250 (initState : State ℚ)))).Time = 3 / 2 := by
  rw [(time_starts_at_play (initState : State ℚ) 250 4000 5500 (by decide) (by decide)).2.1]
  norm_num

/-! ## The shadow on the bike road -/

/-- Over the reals, the point at the law-of-sines distance along the ray at
angle `a` from the car at `(0, d)` lies on the line through the origin with
direction `(sin i, cos i)`. -/
theorem law_of_sines_on_line (d a i : ℝ) (h : Real.sin (Real.pi - (a + i)) ≠ 0) :
    d * Real.sin i / Real.sin (Real.pi - (a + i)) * Real.sin a * Real.cos i =
      (d * Real.sin i / Real.sin (Real.pi - (a + i)) * -Real.cos a + d) * Real.sin i := by
  rw [Real.sin_pi_sub] at h ⊢
  have hD : Real.sin (a + i) = Real.sin a * Real.cos i + Real.cos a * Real.sin i :=
    Real.sin_add a i
  field_simp
  rw [hD]
  ring

/-- Over the reals, a ground point `(x, z)` with `x cos i = z sin i` is the
image of a point of the Z axis under the rotation about Y by `i`. -/
theorem on_line_is_rotated (x y z angle : ℝ)
    (h : x * Real.cos (angle * (Real.pi / 180)) = z * Real.sin (angle * (Real.pi / 180))) :
    (x, y, z) =
      glRotatef_Y (MathH.mk Real.sin Real.cos Real.pi) angle
        (0, y, x * Real.sin (angle * (Real.pi / 180)) +
          z * Real.cos (angle * (Real.pi / 180))) := by
  have hsc := Real.sin_sq_add_cos_sq (angle * (Real.pi / 180))
  simp only [glRotatef_Y, DEG_TO_RAD, neg_zero, zero_mul, zero_add, Prod.mk.injEq, true_and]
  constructor
  · calc x = x * (Real.sin (angle * (Real.pi / 180)) ^ 2 +
            Real.cos (angle * (Real.pi / 180)) ^ 2) := by rw [hsc, mul_one]
      _ = (x * Real.sin (angle * (Real.pi / 180)) +
            z * Real.cos (angle * (Real.pi / 180))) * Real.sin (angle * (Real.pi / 180)) := by
          linear_combination Real.cos (angle * (Real.pi / 180)) * h
  · calc z = z * (Real.sin (angle * (Real.pi / 180)) ^ 2 +
            Real.cos (angle * (Real.pi / 180)) ^ 2) := by rw [hsc, mul_one]
      _ = (x * Real.sin (angle * (Real.pi / 180)) +
            z * Real.cos (angle * (Real.pi / 180))) * Real.cos (angle * (Real.pi / 180)) := by
          linear_combination (-Real.sin (angle * (Real.pi / 180))) * h

/-- The leading vertex of `DrawShadow`, over the reals, satisfies the line
equation of the bike road when its denominator is not zero. -/
theorem lead_on_line (s : State ℝ)
    (hL : leadDenominator (MathH.mk Real.sin Real.cos Real.pi) s ≠ 0) :
    CSED_Lead (MathH.mk Real.sin Real.cos Real.pi) s *
          Real.sin (s.LeadingAngle * (Real.pi / 180)) *
        Real.cos (s.AngleIntersection * (Real.pi / 180)) =
      (CSED_Lead (MathH.mk Real.sin Real.cos Real.pi) s *
          -Real.cos (s.LeadingAngle * (Real.pi / 180)) + s.CarDistance) *
        Real.sin (s.AngleIntersection * (Real.pi / 180)) := by
  simp only [leadDenominator, DEG_TO_RAD] at hL
  simp only [CSED_Lead, CSED_Numerator, leadDenominator, DEG_TO_RAD]
  exact law_of_sines_on_line _ _ _ hL

/-- The trailing vertex of `DrawShadow` at the law-of-sines distance, over the
reals, satisfies the line equation of the bike road when its denominator is
not zero. -/
theorem trail_on_line (s : State ℝ)
    (hT : trailDenominator (MathH.mk Real.sin Real.cos Real.pi) s ≠ 0) :
    CSED_Trail (MathH.mk Real.sin Real.cos Real.pi) s *
          Real.sin (s.TrailingAngle * (Real.pi / 180)) *
        Real.cos (s.AngleIntersection * (Real.pi / 180)) =
      (CSED_Trail (MathH.mk Real.sin Real.cos Real.pi) s *
          -Real.cos (s.TrailingAngle * (Real.pi / 180)) + s.CarDistance) *
        Real.sin (s.AngleIntersection * (Real.pi / 180)) := by
  simp only [trailDenominator, DEG_TO_RAD] at hT
  simp only [CSED_Trail, CSED_Numerator, trailDenominator, DEG_TO_RAD]
  exact law_of_sines_on_line _ _ _ hT

/-- C15. The law-of-sines vertices lie on the bike road.  Over the reals, for
every car distance and angles with `sin (π - (l + i)) ≠ 0`, the leading vertex
`(x, z) = (L sin l, d - L cos l)` satisfies `x cos i = z sin i`; so does the
trailing vertex at the law-of-sines distance when `sin (π - (t + i)) ≠ 0`.
Whenever `DrawShadow` emits its triangle, the leading vertex (and the trailing
one, when it is not the sentinel and its denominator is not zero) satisfies
the equation and is the image of a point of the Z axis under the rotation by
`AngleIntersection` about Y with which `Display` draws the bike road. -/
theorem shadow_vertices_on_bike_road (s : State ℝ)
    (hL : leadDenominator (MathH.mk Real.sin Real.cos Real.pi) s ≠ 0) :
    (CSED_Lead (MathH.mk Real.sin Real.cos Real.pi) s *
          Real.sin (s.LeadingAngle * (Real.pi / 180)) *
        Real.cos (s.AngleIntersection * (Real.pi / 180)) =
      (CSED_Lead (MathH.mk Real.sin Real.cos Real.pi) s *
          -Real.cos (s.LeadingAngle * (Real.pi / 180)) + s.CarDistance) *
        Real.sin (s.AngleIntersection * (Real.pi / 180))) ∧
    (trailDenominator (MathH.mk Real.sin Real.cos Real.pi) s ≠ 0 →
      CSED_Trail (MathH.mk Real.sin Real.cos Real.pi) s *
          Real.sin (s.TrailingAngle * (Real.pi / 180)) *
        Real.cos (s.AngleIntersection * (Real.pi / 180)) =
      (CSED_Trail (MathH.mk Real.sin Real.cos Real.pi) s *
          -Real.cos (s.TrailingAngle * (Real.pi / 180)) + s.CarDistance) *
        Real.sin (s.AngleIntersection * (Real.pi / 180))) ∧
    ∀ v0 v1 v2 : ℝ × ℝ × ℝ,
      DrawShadow (MathH.mk Real.sin Real.cos Real.pi) s = [v0, v1, v2] →
      (v1.1 * Real.cos (s.AngleIntersection * (Real.pi / 180)) =
          v1.2.2 * Real.sin (s.AngleIntersection * (Real.pi / 180)) ∧
        ∃ k : ℝ, v1 = glRotatef_Y (MathH.mk Real.sin Real.cos Real.pi)
          s.AngleIntersection (0, 1 / 10, k)) ∧
      (¬ (180 - s.AngleIntersection < s.TrailingAngle) →
        trailDenominator (MathH.mk Real.sin Real.cos Real.pi) s ≠ 0 →
        v2.1 * Real.cos (s.AngleIntersection * (Real.pi / 180)) =
          v2.2.2 * Real.sin (s.AngleIntersection * (Real.pi / 180)) ∧
        ∃ k : ℝ, v2 = glRotatef_Y (MathH.mk Real.sin Real.cos Real.pi)
          s.AngleIntersection (0, 1 / 10, k)) := by
  refine ⟨lead_on_line s hL, trail_on_line s, ?_⟩
  intro v0 v1 v2 hdraw
  unfold DrawShadow at hdraw
  by_cases hg : s.CarDistance < 0 ∨ 180 - s.AngleIntersection < s.LeadingAngle
  · simp [hg] at hdraw
  · simp only [hg, if_false, List.cons.injEq, and_true, DEG_TO_RAD] at hdraw
    obtain ⟨_, h1, h2⟩ := hdraw
    constructor
    · subst h1
      exact ⟨lead_on_line s hL, _, on_line_is_rotated _ _ _ _ (lead_on_line s hL)⟩
    · intro hs hT
      rw [if_neg hs] at h2
      subst h2
      exact ⟨trail_on_line s hT, _, on_line_is_rotated _ _ _ _ (trail_on_line s hT)⟩

/-- Witness of C15: the default scene at distance 50; the leading denominator
is positive and the leading vertex is on the bike road. -/
theorem shadow_vertices_on_bike_road_witness :
    leadDenominator (MathH.mk Real.sin Real.cos Real.pi)
        { (initState : State ℝ) with
          AngleIntersection := 69, LeadingAngle := 194 / 10,
          TrailingAngle := 271 / 10, CarDistance := 50 } ≠ 0 ∧
      CSED_Lead (MathH.mk Real.sin Real.cos Real.pi)
          { (initState : State ℝ) with
            AngleIntersection := 69, LeadingAngle := 194 / 10,
            TrailingAngle := 271 / 10, CarDistance := 50 } *
          Real.sin (194 / 10 * (Real.pi / 180)) * Real.cos (69 * (Real.pi / 180)) =
        (CSED_Lead (MathH.mk Real.sin Real.cos Real.pi)
          { (initState : State ℝ) with
            AngleIntersection := 69, LeadingAngle := 194 / 10,
            TrailingAngle := 271 / 10, CarDistance := 50 } *
          -Real.cos (194 / 10 * (Real.pi / 180)) + 50) * Real.sin (69 * (Real.pi / 180)) :=
  have h : leadDenominator (MathH.mk Real.sin Real.cos Real.pi)
      { (initState : State ℝ) with
        AngleIntersection := 69, LeadingAngle := 194 / 10,
        TrailingAngle := 271 / 10, CarDistance := 50 } ≠ 0 :=
    ne_of_gt (real_denominator_pos (194 / 10) 69 (by norm_num) (by norm_num))
  ⟨h, (shadow_vertices_on_bike_road _ h).1⟩

/-! ## Binary rounding -/

/-- Rounding to an integer does not pass an integer above. -/
theorem roundEven_le {α : Type} [LinearOrderedField α] [FloorRing α] (y : α) (n : Int)
    (h : y ≤ (n : α)) : roundEven y ≤ n := by
  have hf : Int.floor y ≤ n := by
    have := Int.floor_le_floor h
    simpa using this
  have hup : ¬ (y - (Int.floor y : α) < 1 / 2) → Int.floor y + 1 ≤ n := by
    intro hh
    have h1 : (Int.floor y : α) < y := by
      have : (0 : α) < 1 / 2 := by norm_num
      linarith [not_lt.mp hh]
    have h2 : (Int.floor y : α) < (n : α) := lt_of_lt_of_le h1 h
    have h3 : Int.floor y < n := by exact_mod_cast h2
    omega
  unfold roundEven
  simp only
  split_ifs with h1 h2 h3
  · exact hf
  · exact hup h1
  · exact hf
  · exact hup h1

/-- Rounding to an integer does not pass an integer below. -/
theorem le_roundEven {α : Type} [LinearOrderedField α] [FloorRing α] (y : α) (n : Int)
    (h : (n : α) ≤ y) : n ≤ roundEven y := by
  have hf : n ≤ Int.floor y := Int.le_floor.mpr h
  unfold roundEven
  simp only
  split_ifs <;> omega

/-- The significand of a nonzero value, scaled by its binade, lies in
`[2 ^ (p - 1), 2 ^ p)`. -/
theorem scaled_bounds {α : Type} [LinearOrderedField α] [FloorRing α] (p : Nat) (x : α)
    (hp : 1 ≤ p) (hx : x ≠ 0) :
    (2 : α) ^ (p - 1) ≤ |x| / (2 : α) ^ (Int.log 2 |x| - ((p : Int) - 1)) ∧
      |x| / (2 : α) ^ (Int.log 2 |x| - ((p : Int) - 1)) < (2 : α) ^ p := by
  have hpos : 0 < |x| := abs_pos.mpr hx
  have h2 : (0 : α) < 2 := by norm_num
  have he : (0 : α) < (2 : α) ^ (Int.log 2 |x| - ((p : Int) - 1)) := zpow_pos h2 _
  have hlo : ((2 : Nat) : α) ^ Int.log 2 |x| ≤ |x| := Int.zpow_log_le_self (by norm_num) hpos
  have hhi : |x| < ((2 : Nat) : α) ^ (Int.log 2 |x| + 1) :=
    Int.lt_zpow_succ_log_self (by norm_num) _
  simp only [Nat.cast_ofNat] at hlo hhi
  constructor
  · rw [le_div_iff₀ he]
    have : (2 : α) ^ (p - 1) * (2 : α) ^ (Int.log 2 |x| - ((p : Int) - 1)) =
        (2 : α) ^ Int.log 2 |x| := by
      rw [← zpow_natCast, ← zpow_add₀ (ne_of_gt h2)]
      congr 1
      omega
    rw [this]
    exact hlo
  · rw [div_lt_iff₀ he]
    have : (2 : α) ^ p * (2 : α) ^ (Int.log 2 |x| - ((p : Int) - 1)) =
        (2 : α) ^ (Int.log 2 |x| + 1) := by
      rw [← zpow_natCast, ← zpow_add₀ (ne_of_gt h2)]
      congr 1
      omega
    rw [this]
    exact hhi

/-- Rounding keeps a positive value positive. -/
theorem roundBits_pos {α : Type} [LinearOrderedField α] [FloorRing α] (p : Nat) (x : α)
    (hp : 1 ≤ p) (hx : 0 < x) : 0 < roundBits p x := by
  have hne : x ≠ 0 := ne_of_gt hx
  obtain ⟨hlo, _⟩ := scaled_bounds p x hp hne
  rw [abs_of_pos hx] at hlo
  have h1 : (1 : α) ≤ (2 : α) ^ (p - 1) := one_le_pow₀ (by norm_num)
  have h2 : (1 : Int) ≤ roundEven (x / (2 : α) ^ (Int.log 2 x - ((p : Int) - 1))) :=
    le_roundEven _ 1 (by push_cast; exact le_trans h1 hlo)
  have h3 : (1 : α) ≤ ((roundEven (x / (2 : α) ^ (Int.log 2 x - ((p : Int) - 1))) : Int) : α) := by
    exact_mod_cast h2
  unfold roundBits
  rw [if_neg hne, abs_of_pos hx]
  exact mul_pos (lt_of_lt_of_le one_pos h3) (zpow_pos (by norm_num) _)

/-- Rounding keeps a negative value negative. -/
theorem roundBits_neg {α : Type} [LinearOrderedField α] [FloorRing α] (p : Nat) (x : α)
    (hp : 1 ≤ p) (hx : x < 0) : roundBits p x < 0 := by
  have hne : x ≠ 0 := ne_of_lt hx
  obtain ⟨hlo, _⟩ := scaled_bounds p x hp hne
  rw [abs_of_neg hx] at hlo
  have h1 : (1 : α) ≤ (2 : α) ^ (p - 1) := one_le_pow₀ (by norm_num)
  have h2 : roundEven (x / (2 : α) ^ (Int.log 2 (-x) - ((p : Int) - 1))) ≤ (-1 : Int) := by
    apply roundEven_le
    push_cast
    have := le_trans h1 hlo
    rw [neg_div] at this
    linarith
  have h3 : ((roundEven (x / (2 : α) ^ (Int.log 2 (-x) - ((p : Int) - 1))) : Int) : α) ≤ -1 := by
    exact_mod_cast h2
  unfold roundBits
  rw [if_neg hne, abs_of_neg hx]
  exact mul_neg_of_neg_of_pos (lt_of_le_of_lt h3 (by norm_num)) (zpow_pos (by norm_num) _)

/-- Rounding (with an unbounded exponent) never produces zero from a nonzero
value. -/
theorem roundBits_ne_zero {α : Type} [LinearOrderedField α] [FloorRing α] (p : Nat) (x : α)
    (hp : 1 ≤ p) (hx : x ≠ 0) : roundBits p x ≠ 0 := by
  rcases lt_or_gt_of_ne hx with h | h
  · exact ne_of_lt (roundBits_neg p x hp h)
  · exact ne_of_gt (roundBits_pos p x hp h)

/-- Every rounded value is an integer of magnitude at most `2 ^ p` times a
power of two. -/
theorem roundBits_repr {α : Type} [LinearOrderedField α] [FloorRing α] (p : Nat) (x : α)
    (hp : 1 ≤ p) :
    ∃ M e : Int, roundBits p x = (M : α) * (2 : α) ^ e ∧ |M| ≤ 2 ^ p := by
  by_cases hx : x = 0
  · exact ⟨0, 0, by simp [roundBits, hx], by positivity⟩
  · obtain ⟨_, hhi⟩ := scaled_bounds p x hp hx
    have he : (0 : α) < (2 : α) ^ (Int.log 2 |x| - ((p : Int) - 1)) := zpow_pos (by norm_num) _
    have habs : |x / (2 : α) ^ (Int.log 2 |x| - ((p : Int) - 1))| < (2 : α) ^ p := by
      rw [abs_div, abs_of_pos he]
      exact hhi
    obtain ⟨h1, h2⟩ := abs_lt.mp habs
    refine ⟨roundEven (x / (2 : α) ^ (Int.log 2 |x| - ((p : Int) - 1))),
      Int.log 2 |x| - ((p : Int) - 1), by simp [roundBits, hx], ?_⟩
    rw [abs_le]
    constructor
    · apply le_roundEven
      push_cast
      exact le_of_lt h1
    · apply roundEven_le
      push_cast
      exact le_of_lt h2

/-- The `double` constant `M_PI` needs 50 significant bits: it is no integer of
magnitude at most `2 ^ 24` times a power of two, so no `float` equals it. -/
theorem M_PI_double_not_binary32 (M e : Int) (hM : |M| ≤ 2 ^ 24) :
    (M : ℝ) * (2 : ℝ) ^ e ≠ M_PI_double := by
  intro h
  unfold M_PI_double at h
  obtain ⟨hM1, hM2⟩ := abs_le.mp hM
  rcases le_or_lt (-48) e with he | he
  · obtain ⟨j, hj⟩ : ∃ j : Nat, e = (j : Int) - 48 := ⟨(e + 48).toNat, by omega⟩
    rw [hj, zpow_sub₀ (by norm_num), zpow_natCast] at h
    have h1 : (M : ℝ) * (2 : ℝ) ^ j = 884279719003555 := by
      have h48 : ((2 : ℝ) ^ (48 : Int)) = (2 : ℝ) ^ 48 := by norm_cast
      rw [h48] at h
      field_simp at h
      linarith
    have h2 : M * 2 ^ j = 884279719003555 := by exact_mod_cast h1
    cases j with
    | zero =>
      simp only [pow_zero, mul_one] at h2
      rw [h2] at hM2
      norm_num at hM2
    | succ n =>
      have h3 : 2 * (M * 2 ^ n) = 884279719003555 := by
        rw [← h2, pow_succ]
        ring
      omega
  · obtain ⟨j, hj⟩ : ∃ j : Nat, e = -48 - ((j : Int) + 1) := ⟨(-48 - e - 1).toNat, by omega⟩
    have h1 : (M : ℝ) = 884279719003555 * (2 : ℝ) ^ (j + 1) := by
      rw [hj, zpow_sub₀ (by norm_num)] at h
      have h48 : ((2 : ℝ) ^ (-48 : Int)) = 1 / (2 : ℝ) ^ 48 := by
        rw [zpow_neg]
        norm_cast
        simp
      have hj1 : ((2 : ℝ) ^ ((j : Int) + 1)) = (2 : ℝ) ^ (j + 1) := by norm_cast
      rw [h48, hj1] at h
      field_simp at h
      linarith
    have h2 : M = 884279719003555 * 2 ^ (j + 1) := by exact_mod_cast h1
    have h3 : (1 : Int) ≤ 2 ^ (j + 1) := one_le_pow₀ (by norm_num)
    rw [h2] at hM2
    nlinarith

/-- The sine of a nonzero dyadic rational is not zero, `π` being irrational. -/
theorem sin_dyadic_ne_zero (M e : Int) (h : (M : ℝ) * (2 : ℝ) ^ e ≠ 0) :
    Real.sin ((M : ℝ) * (2 : ℝ) ^ e) ≠ 0 := by
  intro hs
  obtain ⟨n, hn⟩ := Real.sin_eq_zero_iff.mp hs
  have hn0 : n ≠ 0 := by
    rintro rfl
    apply h
    rw [← hn]
    simp
  have hirr : Irrational ((n : ℝ) * Real.pi) := irrational_pi.int_mul hn0
  apply hirr.ne_rat ((M : ℚ) * (2 : ℚ) ^ e)
  rw [hn]
  push_cast
  rfl


/-! ## The machine evaluation at concrete angles -/

/-- As evaluated, the argument of a denominator's `sin` is never zero and is a
dyadic rational: no `float` sum equals the `double` `M_PI`. -/
theorem sinArgument_fp_dyadic (deg iDeg : ℝ) :
    ∃ M e : Int, sinArgument_fp deg iDeg = (M : ℝ) * (2 : ℝ) ^ e ∧
      (M : ℝ) * (2 : ℝ) ^ e ≠ 0 := by
  obtain ⟨M1, e1, h1, hM1⟩ :=
    roundBits_repr 24 (radians_fp deg + radians_fp iDeg) (by norm_num)
  have hne : (M_PI_double : ℝ) - angleSum_fp deg iDeg ≠ 0 := by
    unfold angleSum_fp binary32
    rw [h1]
    exact sub_ne_zero.mpr (Ne.symm (M_PI_double_not_binary32 M1 e1 hM1))
  obtain ⟨M, e, h, _⟩ :=
    roundBits_repr 53 ((M_PI_double : ℝ) - angleSum_fp deg iDeg) (by norm_num)
  refine ⟨M, e, h, ?_⟩
  rw [← h]
  exact roundBits_ne_zero 53 _ (by norm_num) hne

/-- As evaluated, the denominator `sin(M_PI - (angle + iAngle))` is never zero. -/
theorem denominator_fp_ne_zero (deg iDeg : ℝ) :
    binary64 (Real.sin (sinArgument_fp deg iDeg)) ≠ 0 := by
  obtain ⟨M, e, h, hne⟩ := sinArgument_fp_dyadic deg iDeg
  rw [h]
  exact roundBits_ne_zero 53 _ (by norm_num) (sin_dyadic_ne_zero M e hne)

/-- C5. For every input within the documented ranges (intersection in
`[0, 180]`, leading and trailing in `[0, 45]`, car distance in `[0, 1000]`),
whether or not the triangle is emitted and whether or not the sentinel
replaces the trailing distance, the two law-of-sines denominators as the
source evaluates them (`double` sine of the `double` `M_PI` minus a `float`
sum) are nonzero: no vertex coordinate comes from a division by zero. -/
theorem denominators_fp_ne_zero (s : State ℝ)
    (_hi0 : 0 ≤ s.AngleIntersection) (_hi : s.AngleIntersection ≤ 180)
    (_hl0 : 0 ≤ s.LeadingAngle) (_hl : s.LeadingAngle ≤ 45)
    (_ht0 : 0 ≤ s.TrailingAngle) (_ht : s.TrailingAngle ≤ 45)
    (_hd0 : 0 ≤ s.CarDistance) (_hd : s.CarDistance ≤ 1000) :
    leadDenominator_fp Real.sin s ≠ 0 ∧ trailDenominator_fp Real.sin s ≠ 0 :=
  ⟨denominator_fp_ne_zero _ _, denominator_fp_ne_zero _ _⟩

/-- Witness of C5: intersection 135, leading 45, trailing 45, distance 50, the
boundary `LeadingAngle = 180 - AngleIntersection` where neither guard fires. -/
theorem denominators_fp_ne_zero_witness :
    ¬ ((180 : ℝ) - 135 < 45) ∧
      leadDenominator_fp Real.sin
        { (initState : State ℝ) with
          AngleIntersection := 135, LeadingAngle := 45,
          TrailingAngle := 45, CarDistance := 50 } ≠ 0 ∧
      trailDenominator_fp Real.sin
        { (initState : State ℝ) with
          AngleIntersection := 135, LeadingAngle := 45,
          TrailingAngle := 45, CarDistance := 50 } ≠ 0 :=
  ⟨by norm_num,
    denominators_fp_ne_zero
      { (initState : State ℝ) with
        AngleIntersection := 135, LeadingAngle := 45,
        TrailingAngle := 45, CarDistance := 50 }
      (by norm_num) (by norm_num) (by norm_num) (by norm_num) (by norm_num)
      (by norm_num) (by norm_num) (by norm_num)⟩

end CyclistCollider
